import Mathlib

/-!
Shallow embedding of the campaign orchestrator in `fuzzer/fuzzer.py` and
proofs about the properties its specification states.

The Python code is modelled as pure Lean functions over explicit
representations of the parts of the environment it touches (directory
listings, file contents, subprocess termination statuses).  Exceptions are
modelled by an error type `PyError`; a Python method that can raise is a
function into `Except PyError _` (or it returns the raised error alongside
the unchanged object state, where the surviving state matters).
-/

/-- The Python exception classes that the modelled code can raise.
`earlyCrash` is the module's own `EarlyCrash` class; the others are the
built-ins raised by the modelled operations. -/
inductive PyError where
  | valueError
  | assertionError
  | osError
  | keyError
  | earlyCrash
deriving DecidableEq, Repr

/-- Fuel-bounded decimal digit rendering; the fuel is structurally
decreased so that the definition reduces by computation.  Any fuel at
least as large as the number itself is sufficient. -/
def decDigitsAux : Nat → Nat → List Char
  | 0, n => [Nat.digitChar n]
  | fuel + 1, n =>
    if n < 10 then [Nat.digitChar n]
    else decDigitsAux fuel (n / 10) ++ [Nat.digitChar (n % 10)]

/-- Decimal digit characters of a natural number: the rendering used by
Python's percent-d format specifier (no sign, no padding). -/
def decDigits (n : Nat) : List Char :=
  decDigitsAux n n

/-- The string Python's percent-d produces for a natural number. -/
def pyFormatD (n : Nat) : String :=
  ⟨decDigits n⟩

/-- Numeric value of a list of decimal digit characters; used only to prove
that `decDigits` is injective. -/
def decValue (cs : List Char) : Nat :=
  cs.foldl (fun a c => a * 10 + (c.toNat - 48)) 0

lemma digitChar_val : ∀ d < 10, (Nat.digitChar d).toNat - 48 = d := by decide

lemma decValue_append_digit (xs : List Char) (c : Char) :
    decValue (xs ++ [c]) = decValue xs * 10 + (c.toNat - 48) := by
  simp [decValue, List.foldl_append]

lemma decValue_decDigitsAux (fuel n : Nat) (h : n ≤ fuel) :
    decValue (decDigitsAux fuel n) = n := by
  induction fuel generalizing n with
  | zero =>
    have hn : n = 0 := by omega
    subst hn
    decide
  | succ fuel ih =>
    rw [decDigitsAux]
    by_cases hlt : n < 10
    · rw [if_pos hlt]
      simpa [decValue] using digitChar_val n hlt
    · rw [if_neg hlt, decValue_append_digit,
        ih (n / 10) (by omega),
        digitChar_val (n % 10) (Nat.mod_lt _ (by omega))]
      omega

lemma decValue_decDigits (n : Nat) : decValue (decDigits n) = n :=
  decValue_decDigitsAux n n (Nat.le_refl n)

lemma decDigits_injective : Function.Injective decDigits := by
  intro a b h
  have := congrArg decValue h
  simpa [decValue_decDigits] using this

lemma pyFormatD_injective : Function.Injective pyFormatD := by
  intro a b h
  exact decDigits_injective (by simpa [pyFormatD] using congrArg String.data h)

/-- A Python value passed as the `extra_opts` argument: `None`, a list of
strings, or a value of any other type (which fails the `isinstance` check). -/
inductive PyVal where
  | pyNone
  | pyList (xs : List String)
  | pyOther
deriving DecidableEq, Repr

/-- Model of `os.path.join` for the relative path components the orchestrator
joins. -/
def pyJoin (a b : String) : String :=
  a ++ "/" ++ b

/-- Splits a character list at every occurrence of the separator character,
keeping empty groups, as Python's `str.split(sep)` does for a one-character
separator. -/
def splitChars (sep : Char) : List Char → List (List Char)
  | [] => [[]]
  | a :: rest =>
    match splitChars sep rest with
    | [] => [[a]]
    | g :: gs => if a = sep then [] :: g :: gs else (a :: g) :: gs

/-- Model of Python `s.split(sep)` for a one-character separator. -/
def pySplit (s : String) (sep : Char) : List String :=
  (splitChars sep s.data).map (fun l => ⟨l⟩)

/-- The characters Python's `str.strip()` removes. -/
def pySpace (c : Char) : Bool :=
  c = ' ' || c = '\t' || c = '\n' || c = '\r' || c = '\x0b' || c = '\x0c'

/-- Model of Python `s.strip()`: removes leading and trailing whitespace. -/
def pyStrip (s : String) : String :=
  ⟨((s.data.dropWhile pySpace).reverse.dropWhile pySpace).reverse⟩

/-- Model of `os.path.basename`. -/
def pyBasename (p : String) : String :=
  (pySplit p '/').getLastD ""

/-- A spawned AFL worker process: the command line it was launched with and
the log file its standard output is redirected to. -/
structure Worker where
  args : List String
  logFile : String
deriving DecidableEq, Repr

/-- The mutable state of a `Fuzzer` object.  `input_files` records the seed
files the constructor wrote into the input directory (name, content), so that
the on-disk effect of `_initialize_seeds` is observable. -/
structure FuzzerState where
  binary_path : String
  work_dir : String
  afl_count : Nat
  seeds : List String
  binary_id : String
  job_dir : String
  in_dir : String
  out_dir : String
  extra_opts : Option (List String)
  afl_path : String
  dictionary : Option String
  procs : List Worker
  fuzz_id : Nat
  resuming : Bool
  input_files : List (String × String)
  is_on : Bool
deriving DecidableEq, Repr

/-- The parts of the filesystem environment the constructor consults:
whether the input directory exists and what it contains, whether a
dictionary file for this binary already exists, and whether the
`create_dict.py` subprocess would exit with status 0. -/
structure InitEnv where
  inDirIsDir : Bool
  inDirList : List String
  dictFileExists : Bool
  createDictRet : Bool
deriving DecidableEq, Repr

/-- The loop body of `_initialize_seeds`: writes `seed-i`, `seed-(i+1)`, …
for the successive seeds, returning the (name, content) pairs written. -/
def writeSeedFiles : List String → Nat → List (String × String)
  | [], _ => []
  | s :: rest, i => ("seed-" ++ pyFormatD i, s) :: writeSeedFiles rest (i + 1)

/-- Model of `Fuzzer._initialize_seeds`: asserts the seed list is non-empty
(an `AssertionError` otherwise) and writes one file per seed into the input
directory, named `seed-%d` by position. -/
def Fuzzer.initialize_seeds (seeds : List String) : Except PyError (List (String × String)) :=
  if seeds.length > 0 then Except.ok (writeSeedFiles seeds 0)
  else Except.error PyError.assertionError

/-- Extracts the `Option` view of a checked `extra_opts` value. -/
def PyVal.toOpt : PyVal → Option (List String)
  | PyVal.pyNone => none
  | PyVal.pyList xs => some xs
  | PyVal.pyOther => none

/-- Model of `Fuzzer.__init__`.  Mirrors the source order: defaulting of
`seeds`, path derivations, the `extra_opts` isinstance check (raising
`ValueError`), the resume test on the input directory, seed initialization
on the fresh path (input-directory creation is best-effort and not
modelled as fallible), and dictionary resolution. -/
def Fuzzer.init (binary_path work_dir : String) (afl_count : Nat)
    (extra_opts : PyVal) (create_dictionary : Bool)
    (seeds0 : Option (List String)) (env : InitEnv) :
    Except PyError FuzzerState :=
  let seeds := match seeds0 with
    | none => ["fuzz"]
    | some s => s
  let binary_id := pyBasename binary_path
  let job_dir := pyJoin work_dir binary_id
  let in_dir := pyJoin job_dir "input"
  let out_dir := pyJoin job_dir "sync"
  if extra_opts = PyVal.pyOther then Except.error PyError.valueError
  else
    let resuming := if env.inDirIsDir then !env.inDirList.isEmpty else false
    let in_dir2 := if resuming then "-" else in_dir
    do
    let written ← if resuming then Except.ok [] else Fuzzer.initialize_seeds seeds
    let dictionary_file := pyJoin job_dir (binary_id ++ ".dict")
    let dictionary :=
      if env.dictFileExists then some dictionary_file
      else if !resuming ∧ create_dictionary ∧ env.createDictRet then some dictionary_file
      else none
    Except.ok
      { binary_path := binary_path
        work_dir := work_dir
        afl_count := afl_count
        seeds := seeds
        binary_id := binary_id
        job_dir := job_dir
        in_dir := in_dir2
        out_dir := out_dir
        extra_opts := extra_opts.toOpt
        afl_path := "afl-fuzz"
        dictionary := dictionary
        procs := []
        fuzz_id := 0
        resuming := resuming
        input_files := written
        is_on := false }

/-- Reads back a file from a list of performed writes: the last write to the
given name wins (later `open(..., "wb")` truncates earlier content). -/
def readFile (files : List (String × String)) (name : String) : Option String :=
  (files.filter (fun p => p.1 == name)).getLast?.map Prod.snd

/-- One entry of the shared sync directory as the monitor sees it: its name,
the content of its `fuzzer_stats` file when that path is a file, and the
listing of its `crashes` subdirectory (file name, file content) when that
path is a directory. -/
structure FuzzerDirEntry where
  name : String
  fuzzerStats : Option String
  crashes : Option (List (String × String))
deriving DecidableEq, Repr

/-- The shared sync output directory: whether `out_dir` exists as a
directory, and its entries in `os.listdir` order. -/
structure SyncDir where
  isDir : Bool
  entries : List FuzzerDirEntry
deriving DecidableEq, Repr

/-- Python dict assignment `d[k] = v` on an association list. -/
def dictInsert (d : List (String × String)) (k v : String) : List (String × String) :=
  if d.any (fun p => p.1 == k) then d.map (fun p => if p.1 == k then (k, v) else p)
  else d ++ [(k, v)]

/-- Python dict lookup `d[k]`, returning `none` where Python raises
`KeyError`. -/
def dictGet (d : List (String × String)) (k : String) : Option String :=
  match d with
  | [] => none
  | p :: rest => if p.1 == k then some p.2 else dictGet rest k

/-- The per-line loop of `Fuzzer.stats`: each line must split on `:` into
exactly a key and a value (`key, val = stat.split(":")`), which are trimmed
and stored; any other shape raises `ValueError`. -/
def parseStatLines : List String → List (String × String) → Except PyError (List (String × String))
  | [], d => Except.ok d
  | line :: rest, d =>
    match pySplit line ':' with
    | [k, v] => parseStatLines rest (dictInsert d (pyStrip k) (pyStrip v))
    | _ => Except.error PyError.valueError

/-- Parses one `fuzzer_stats` blob: split on newlines, drop the text after
the final newline, parse each line. -/
def parseStatFile (blob : String) : Except PyError (List (String × String)) :=
  parseStatLines ((pySplit blob '\n').dropLast) []

/-- The directory loop of `Fuzzer.stats` over the sync-directory entries,
accumulating one parsed dict per entry that has a `fuzzer_stats` file.  A
parse error propagates and aborts the scan. -/
def statsScan : List FuzzerDirEntry → List (String × List (String × String)) →
    Except PyError (List (String × List (String × String)))
  | [], acc => Except.ok acc
  | e :: rest, acc =>
    match e.fuzzerStats with
    | none => statsScan rest acc
    | some blob =>
      match parseStatFile blob with
      | Except.error err => Except.error err
      | Except.ok d => statsScan rest (acc ++ [(e.name, d)])

/-- Model of `Fuzzer.stats`: empty mapping when `out_dir` is not a
directory, otherwise the scan over its entries. -/
def Fuzzer.stats (sync : SyncDir) : Except PyError (List (String × List (String × String))) :=
  if sync.isDir then statsScan sync.entries [] else Except.ok []

/-- Accumulating digit-string evaluator: fails on the first non-digit. -/
def digitsValAux : List Char → Nat → Option Nat
  | [], acc => some acc
  | c :: rest, acc =>
    if c.isDigit then digitsValAux rest (acc * 10 + (c.toNat - 48)) else none

/-- Value of a digit string: `some` when non-empty and all decimal digits. -/
def digitsVal : List Char → Option Nat
  | [] => none
  | l => digitsValAux l 0

/-- Model of Python `int(s)`: strips whitespace, allows one leading sign,
then requires a non-empty digit string; `none` where Python raises
`ValueError`. -/
def pyInt? (s : String) : Option Int :=
  match (pyStrip s).data with
  | '-' :: rest => (digitsVal rest).map (fun n => -(n : Int))
  | '+' :: rest => (digitsVal rest).map (fun n => (n : Int))
  | l => (digitsVal l).map (fun n => (n : Int))

/-- The loop of `Fuzzer.found_crash` over the parsed stats: a missing
`unique_crashes` key is a caught `KeyError` (the job is skipped); a value
`int()` cannot parse raises `ValueError`; a positive count returns true. -/
def foundCrashScan : List (String × List (String × String)) → Except PyError Bool
  | [] => Except.ok false
  | (_, d) :: rest =>
    match dictGet d "unique_crashes" with
    | none => foundCrashScan rest
    | some v =>
      match pyInt? v with
      | none => Except.error PyError.valueError
      | some n => if n > 0 then Except.ok true else foundCrashScan rest

/-- Model of `Fuzzer.found_crash`. -/
def Fuzzer.found_crash (sync : SyncDir) : Except PyError Bool := do
  let st ← Fuzzer.stats sync
  foundCrashScan st

/-- Python `set.add` on a duplicate-free list representation of a set. -/
def setInsert (acc : List String) (x : String) : List String :=
  if acc.contains x then acc else acc ++ [x]

/-- The inner loop of `Fuzzer.crashes` over one worker's crash directory
listing: every file except `README.txt` has its content added to the set. -/
def addCrashFiles (acc : List String) : List (String × String) → List String
  | [] => acc
  | f :: rest =>
    if f.1 == "README.txt" then addCrashFiles acc rest
    else addCrashFiles (setInsert acc f.2) rest

/-- The outer loop of `Fuzzer.crashes` over the sync-directory entries: an
entry without a `crashes` subdirectory is skipped. -/
def collectCrashes : List FuzzerDirEntry → List String → List String
  | [], acc => acc
  | e :: rest, acc =>
    match e.crashes with
    | none => collectCrashes rest acc
    | some fs => collectCrashes rest (addCrashFiles acc fs)

/-- Model of `Fuzzer.crashes`: short-circuits to `[]` when `found_crash()`
is false (propagating any exception it raises); otherwise lists `out_dir`
(an `OSError` if it does not exist) and gathers the deduplicated crash
contents. -/
def Fuzzer.crashes (sync : SyncDir) : Except PyError (List String) := do
  let fc ← Fuzzer.found_crash sync
  if !fc then Except.ok []
  else if sync.isDir then Except.ok (collectCrashes sync.entries [])
  else Except.error PyError.osError

/-- The outcome of the single preflight execution attempted by
`_crash_test`: the harness process was launched and terminated with the
given status (negative when killed by a signal), or launching it raised. -/
inductive LaunchResult where
  | ok (status : Int)
  | raises
deriving DecidableEq, Repr

/-- What `_crash_test` leaves behind: its return value (or the exception it
propagates) and whether the temporary input file was removed. -/
structure CrashTestOutcome where
  result : Except PyError Bool
  tempFileRemoved : Bool
deriving Repr

/-- Model of `Fuzzer._crash_test`: makes a temporary file, writes "fuzz" to
it, runs the target under the tracer, and returns whether the process
terminated via a signal (`p.poll() < 0`).  `os.remove(jfile)` is the last
statement of the straight-line body, with no try/finally around it: when
`subprocess.Popen` raises, the removal statement is never reached. -/
def Fuzzer.crash_test (launch : LaunchResult) : CrashTestOutcome :=
  match launch with
  | LaunchResult.raises =>
    { result := Except.error PyError.osError, tempFileRemoved := false }
  | LaunchResult.ok status =>
    { result := Except.ok (status < 0), tempFileRemoved := true }

/-- Model of `Fuzzer._start_afl_instance`: builds the AFL command line for
the current `fuzz_id` (0 gets the master role, any other id the secondary
role named `fuzzer-<id>`), increments `fuzz_id`, and returns the worker
handle with its role-named log file inside the job directory. -/
def Fuzzer.start_afl_instance (st : FuzzerState) (memory : String) : FuzzerState × Worker :=
  let args := [st.afl_path]
  let args := args ++ ["-i", st.in_dir]
  let args := args ++ ["-o", st.out_dir]
  let args := args ++ ["-m", memory]
  let args := args ++ ["-Q"]
  let roleArgs := if st.fuzz_id = 0 then ["-M", "fuzzer-master"]
    else ["-S", "fuzzer-" ++ pyFormatD st.fuzz_id]
  let outfile := if st.fuzz_id = 0 then "fuzzer-master.log"
    else "fuzzer-" ++ pyFormatD st.fuzz_id ++ ".log"
  let args := args ++ roleArgs
  let args := match st.dictionary with
    | none => args
    | some d => args ++ ["-x", d]
  let args := match st.extra_opts with
    | none => args
    | some eo => args ++ eo
  let args := args ++ ["--", st.binary_path]
  ({ st with fuzz_id := st.fuzz_id + 1 },
   { args := args, logFile := pyJoin st.job_dir outfile })

/-- Spawns one AFL instance with the default 8G memory ceiling and appends
it to `procs` (the `self.procs.append(self._start_afl_instance())` idiom). -/
def addInstance (st : FuzzerState) : FuzzerState :=
  let p := Fuzzer.start_afl_instance st "8G"
  { p.1 with procs := p.1.procs ++ [p.2] }

/-- Spawns `n` further AFL instances in sequence. -/
def addInstances (st : FuzzerState) : Nat → FuzzerState
  | 0 => st
  | n + 1 => addInstances (addInstance st) n

/-- Model of `Fuzzer._start_afl`: spawn the master, spawn one extra
(driller) instance whenever `afl_count > 1`, then one instance per element
of `range(2, afl_count)`. -/
def Fuzzer.start_afl (st : FuzzerState) : FuzzerState :=
  let st1 := addInstance st
  let st2 := if st.afl_count > 1 then addInstance st1 else st1
  addInstances st2 (st.afl_count - 2)

/-- Model of `Fuzzer.start`: runs the preflight crash test (whose own
exception propagates), raises `EarlyCrash` when it reports a fault, and
otherwise spawns the AFL workers and sets the campaign active.  The state
component of the result is the object's state after the call: unchanged
when an exception is raised. -/
def Fuzzer.start (launch : LaunchResult) (st : FuzzerState) : FuzzerState × Option PyError :=
  match (Fuzzer.crash_test launch).result with
  | Except.error e => (st, some e)
  | Except.ok true => (st, some PyError.earlyCrash)
  | Except.ok false => ({ Fuzzer.start_afl st with is_on := true }, none)

/-- The worker a fresh campaign's i-th spawn produces, as a function of the
campaign state's launch-relevant fields. -/
def mkWorker (st : FuzzerState) (i : Nat) : Worker :=
  (Fuzzer.start_afl_instance { st with fuzz_id := i } "8G").2

/-- A concrete fresh campaign state used by closed witness and
counterexample theorems. -/
def sampleState : FuzzerState :=
  { binary_path := "bp", work_dir := "wd", afl_count := 2, seeds := ["fuzz"],
    binary_id := "b", job_dir := "job", in_dir := "in", out_dir := "out",
    extra_opts := none, afl_path := "afl", dictionary := none, procs := [],
    fuzz_id := 0, resuming := false, input_files := [], is_on := false }

lemma seedName_ne {i j : Nat} (h : i ≠ j) :
    ("seed-" ++ pyFormatD i) ≠ ("seed-" ++ pyFormatD j) := by
  intro heq
  apply h
  apply decDigits_injective
  have hd := congrArg String.data heq
  simp only [String.data_append, pyFormatD] at hd
  exact List.append_cancel_left hd

lemma writeSeedFiles_length (seeds : List String) (m : Nat) :
    (writeSeedFiles seeds m).length = seeds.length := by
  induction seeds generalizing m with
  | nil => rfl
  | cons s rest ih => simp [writeSeedFiles, ih]

lemma writeSeedFiles_names (seeds : List String) (m : Nat) :
    (writeSeedFiles seeds m).map Prod.fst =
      (List.range' m seeds.length).map (fun j => "seed-" ++ pyFormatD j) := by
  induction seeds generalizing m with
  | nil => rfl
  | cons s rest ih => simp [writeSeedFiles, List.range', ih]

lemma writeSeedFiles_names_nodup (seeds : List String) (m : Nat) :
    ((writeSeedFiles seeds m).map Prod.fst).Nodup := by
  rw [writeSeedFiles_names]
  refine List.Nodup.map ?_ (by simp [List.nodup_range'])
  intro a b hab
  by_contra hne
  exact seedName_ne hne hab

lemma filter_writeSeedFiles_lt (seeds : List String) (m i : Nat) (h : i < m) :
    (writeSeedFiles seeds m).filter (fun p => p.1 == ("seed-" ++ pyFormatD i)) = [] := by
  induction seeds generalizing m with
  | nil => rfl
  | cons s rest ih =>
    rw [writeSeedFiles, List.filter_cons]
    have hne : ((("seed-" ++ pyFormatD m, s) : String × String).1 ==
        ("seed-" ++ pyFormatD i)) = false := by
      simp only [beq_eq_false_iff_ne]
      exact seedName_ne (by omega)
    simp only [hne, Bool.false_eq_true, if_false]
    exact ih (m + 1) (by omega)

lemma readFile_cons_ne (p : String × String) (files : List (String × String))
    (name : String) (h : (p.1 == name) = false) :
    readFile (p :: files) name = readFile files name := by
  simp [readFile, List.filter_cons, h]

lemma readFile_writeSeedFiles (seeds : List String) (m i : Nat) (h : i < seeds.length) :
    readFile (writeSeedFiles seeds m) ("seed-" ++ pyFormatD (m + i)) =
      some (seeds.get ⟨i, h⟩) := by
  induction seeds generalizing m i with
  | nil => simp at h
  | cons s rest ih =>
    match i with
    | 0 =>
      rw [Nat.add_zero, writeSeedFiles, readFile, List.filter_cons]
      have hbeq : ((("seed-" ++ pyFormatD m, s) : String × String).1 ==
          ("seed-" ++ pyFormatD m)) = true := by simp
      simp only [hbeq, if_true]
      rw [filter_writeSeedFiles_lt rest (m + 1) m (by omega)]
      rfl
    | j + 1 =>
      rw [writeSeedFiles, readFile_cons_ne _ _ _ (by
        simp only [beq_eq_false_iff_ne]
        exact seedName_ne (by omega))]
      have harith : m + (j + 1) = (m + 1) + j := by omega
      rw [harith]
      exact ih (m + 1) j (Nat.lt_of_succ_lt_succ h)

lemma init_fresh_spec (bp wd : String) (n : Nat) (eo : PyVal) (cd : Bool)
    (seeds0 : Option (List String)) (seeds : List String) (env : InitEnv)
    (heo : eo ≠ PyVal.pyOther)
    (hs0 : seeds0 = some seeds ∨ (seeds0 = none ∧ seeds = ["fuzz"]))
    (hres : (if env.inDirIsDir then !env.inDirList.isEmpty else false) = false)
    (hlen : 0 < seeds.length) :
    ∃ st : FuzzerState,
      Fuzzer.init bp wd n eo cd seeds0 env = Except.ok st ∧
      st.seeds = seeds ∧ st.resuming = false ∧
      st.input_files = writeSeedFiles seeds 0 := by
  rcases hs0 with h | ⟨h, h2⟩
  · subst h
    simp only [Fuzzer.init]
    rw [if_neg heo]
    simp only [hres, Bool.false_eq_true, if_false, Fuzzer.initialize_seeds, if_pos hlen,
      bind, Except.bind]
    exact ⟨_, rfl, rfl, rfl, rfl⟩
  · subst h
    subst h2
    simp only [Fuzzer.init]
    rw [if_neg heo]
    simp only [hres, Bool.false_eq_true, if_false, Fuzzer.initialize_seeds, if_pos hlen,
      bind, Except.bind]
    exact ⟨_, rfl, rfl, rfl, rfl⟩

lemma init_resume_spec (bp wd : String) (n : Nat) (eo : PyVal) (cd : Bool)
    (seeds0 : Option (List String)) (env : InitEnv)
    (heo : eo ≠ PyVal.pyOther)
    (hres : (if env.inDirIsDir then !env.inDirList.isEmpty else false) = true) :
    ∃ st : FuzzerState,
      Fuzzer.init bp wd n eo cd seeds0 env = Except.ok st ∧
      st.resuming = true ∧
      st.input_files = [] ∧
      st.in_dir = "-" := by
  simp only [Fuzzer.init]
  rw [if_neg heo]
  simp only [hres, if_true, bind, Except.bind]
  exact ⟨_, rfl, rfl, rfl, rfl⟩

/-- C5: if the campaign's input directory already contains at least one
entry at construction time, the campaign is constructed with `resuming`
true and no new seed files are written to the input directory, regardless
of the seed sequence supplied (the input directory is replaced by the
resume sentinel "-"). -/
theorem resume_skips_seed_writes (bp wd : String) (n : Nat) (eo : PyVal) (cd : Bool)
    (seeds : List String) (env : InitEnv)
    (heo : eo ≠ PyVal.pyOther)
    (hdir : env.inDirIsDir = true)
    (hne : env.inDirList ≠ []) :
    ∃ st : FuzzerState,
      Fuzzer.init bp wd n eo cd (some seeds) env = Except.ok st ∧
      st.resuming = true ∧
      st.input_files = [] ∧
      st.in_dir = "-" := by
  refine init_resume_spec bp wd n eo cd (some seeds) env heo ?_
  simp [hdir, hne]

theorem resume_skips_seed_writes_witness :
    ∃ st : FuzzerState,
      Fuzzer.init "/bin/f" "/w" 2 PyVal.pyNone false (some []) ⟨true, ["old"], false, false⟩ =
        Except.ok st ∧
      st.resuming = true ∧
      st.input_files = [] ∧
      st.in_dir = "-" :=
  resume_skips_seed_writes "/bin/f" "/w" 2 PyVal.pyNone false []
    ⟨true, ["old"], false, false⟩ (by simp) rfl (by simp)

/-- C6: on a fresh (non-resuming) campaign with a non-empty seed sequence,
construction writes exactly one file per seed (distinct names), and the
bytes readable back from the i-th seed file equal the i-th seed's bytes. -/
theorem seed_files_roundtrip (bp wd : String) (n : Nat) (eo : PyVal) (cd : Bool)
    (seeds : List String) (env : InitEnv)
    (heo : eo ≠ PyVal.pyOther)
    (hs : seeds ≠ [])
    (hres : env.inDirIsDir = false ∨ env.inDirList = []) :
    ∃ st : FuzzerState,
      Fuzzer.init bp wd n eo cd (some seeds) env = Except.ok st ∧
      st.input_files.length = seeds.length ∧
      (st.input_files.map Prod.fst).Nodup ∧
      ∀ i (h : i < seeds.length),
        readFile st.input_files ("seed-" ++ pyFormatD i) = some (seeds.get ⟨i, h⟩) := by
  have hlen : 0 < seeds.length := List.length_pos.mpr hs
  obtain ⟨st, hinit, _, _, hfiles⟩ :=
    init_fresh_spec bp wd n eo cd (some seeds) seeds env heo (Or.inl rfl)
      (by rcases hres with h | h <;> simp [h]) hlen
  refine ⟨st, hinit, ?_, ?_, ?_⟩
  · rw [hfiles, writeSeedFiles_length]
  · rw [hfiles]
    exact writeSeedFiles_names_nodup seeds 0
  · intro i h
    rw [hfiles]
    have := readFile_writeSeedFiles seeds 0 i h
    simpa using this

theorem seed_files_roundtrip_witness :
    ∃ st : FuzzerState,
      Fuzzer.init "/bin/f" "/w" 1 PyVal.pyNone false (some ["abc", "xy"])
          ⟨false, [], false, false⟩ = Except.ok st ∧
      st.input_files.length = 2 ∧
      (st.input_files.map Prod.fst).Nodup ∧
      readFile st.input_files "seed-1" = some "xy" := by
  obtain ⟨st, h1, h2, h3, h4⟩ :=
    seed_files_roundtrip "/bin/f" "/w" 1 PyVal.pyNone false ["abc", "xy"]
      ⟨false, [], false, false⟩ (by simp) (by simp) (Or.inl rfl)
  exact ⟨st, h1, h2, h3, by simpa using h4 1 (by simp)⟩

/-- C8: constructing a campaign with an explicitly empty seed sequence and
no prior corpus raises `AssertionError`, and constructing with an
`extra_opts` value that is not a list raises `ValueError`; both failures
are synchronous at construction and the two conditions are distinct. -/
theorem construction_errors_synchronous (bp wd : String) (n : Nat) (cd : Bool)
    (s0 : Option (List String)) (env : InitEnv)
    (hres : env.inDirIsDir = false ∨ env.inDirList = []) :
    Fuzzer.init bp wd n PyVal.pyNone cd (some []) env = Except.error PyError.assertionError ∧
    Fuzzer.init bp wd n PyVal.pyOther cd s0 env = Except.error PyError.valueError ∧
    PyError.assertionError ≠ PyError.valueError := by
  refine ⟨?_, ?_, by simp⟩
  · have hres' : (if env.inDirIsDir then !env.inDirList.isEmpty else false) = false := by
      rcases hres with h | h <;> simp [h]
    simp only [Fuzzer.init]
    rw [if_neg (by simp : PyVal.pyNone ≠ PyVal.pyOther)]
    simp [hres', Fuzzer.initialize_seeds, bind, Except.bind]
  · simp [Fuzzer.init]

theorem construction_errors_synchronous_witness :
    Fuzzer.init "/bin/f" "/w" 1 PyVal.pyNone false (some [])
        ⟨false, [], false, false⟩ = Except.error PyError.assertionError ∧
    Fuzzer.init "/bin/f" "/w" 1 PyVal.pyOther false (some ["s"])
        ⟨false, [], false, false⟩ = Except.error PyError.valueError ∧
    PyError.assertionError ≠ PyError.valueError :=
  construction_errors_synchronous "/bin/f" "/w" 1 false (some ["s"])
    ⟨false, [], false, false⟩ (Or.inl rfl)

/-- C9: a fresh (non-resuming) campaign constructed with the seeds
parameter omitted (None) gets the default seed list ["fuzz"], succeeds
(never hitting the empty-seed assertion), and writes exactly one seed file
whose content is "fuzz". -/
theorem default_seed_fuzz (bp wd : String) (n : Nat) (eo : PyVal) (cd : Bool)
    (env : InitEnv)
    (heo : eo ≠ PyVal.pyOther)
    (hres : env.inDirIsDir = false ∨ env.inDirList = []) :
    ∃ st : FuzzerState,
      Fuzzer.init bp wd n eo cd none env = Except.ok st ∧
      st.seeds = ["fuzz"] ∧
      st.input_files = [("seed-0", "fuzz")] := by
  obtain ⟨st, hinit, hseeds, _, hfiles⟩ :=
    init_fresh_spec bp wd n eo cd none ["fuzz"] env heo (Or.inr ⟨rfl, rfl⟩)
      (by rcases hres with h | h <;> simp [h]) (by simp)
  refine ⟨st, hinit, hseeds, ?_⟩
  rw [hfiles]
  rfl

theorem default_seed_fuzz_witness :
    ∃ st : FuzzerState,
      Fuzzer.init "/bin/f" "/w" 1 PyVal.pyNone false none ⟨false, [], false, false⟩ =
        Except.ok st ∧
      st.seeds = ["fuzz"] ∧
      st.input_files = [("seed-0", "fuzz")] :=
  default_seed_fuzz "/bin/f" "/w" 1 PyVal.pyNone false ⟨false, [], false, false⟩
    (by simp) (Or.inl rfl)

/-- C10: when the shared sync output directory does not exist, `stats()`
returns the empty mapping without raising, and `found_crash()` is
consequently false. -/
theorem stats_missing_outdir_empty (entries : List FuzzerDirEntry) :
    Fuzzer.stats ⟨false, entries⟩ = Except.ok [] ∧
    Fuzzer.found_crash ⟨false, entries⟩ = Except.ok false :=
  ⟨rfl, rfl⟩

lemma statsScan_error_of_mem (e : FuzzerDirEntry) (blob : String) (err : PyError)
    (hb : e.fuzzerStats = some blob) (hp : parseStatFile blob = Except.error err) :
    ∀ (entries : List FuzzerDirEntry) (acc : List (String × List (String × String))),
      e ∈ entries → ∃ e2, statsScan entries acc = Except.error e2 := by
  intro entries
  induction entries with
  | nil => intro acc he; cases he
  | cons a rest ih =>
    intro acc he
    rcases List.mem_cons.mp he with heq | hmem
    · subst heq
      simp only [statsScan, hb, hp]
      exact ⟨err, rfl⟩
    · rcases ha : a.fuzzerStats with _ | ablob
      · simp only [statsScan, ha]
        exact ih acc hmem
      · simp only [statsScan, ha]
        rcases hpa : parseStatFile ablob with e2 | d
        · simp only [hpa]
          exact ⟨e2, rfl⟩
        · simp only [hpa]
          exact ih _ hmem

/-- C3 counterexample: worker f0's status file has a line that does not
split into exactly one key-value pair, worker f1's is well-formed; the
aggregate `stats()` raises `ValueError` and returns no entry for f1 (the
parse failure is not isolated to f0's entry). -/
theorem stats_malformed_aborts_scan :
    Fuzzer.stats ⟨true, [⟨"f0", some "bogus\n", none⟩,
      ⟨"f1", some "unique_crashes : 1\n", none⟩]⟩ =
      Except.error PyError.valueError := rfl

/-- C3 (amended): if any worker's status file is malformed, `stats()`
raises instead of returning a mapping: the parse failure aborts the whole
aggregate scan and no other worker's entry is returned either. -/
theorem stats_malformed_raises (sync : SyncDir) (e : FuzzerDirEntry)
    (blob : String) (err : PyError)
    (hdir : sync.isDir = true) (he : e ∈ sync.entries)
    (hb : e.fuzzerStats = some blob) (hp : parseStatFile blob = Except.error err) :
    ∃ e2, Fuzzer.stats sync = Except.error e2 := by
  rw [Fuzzer.stats, if_pos hdir]
  exact statsScan_error_of_mem e blob err hb hp sync.entries [] he

theorem stats_malformed_raises_witness :
    ∃ e2, Fuzzer.stats ⟨true, [⟨"f0", some "bogus\n", none⟩]⟩ = Except.error e2 :=
  stats_malformed_raises ⟨true, [⟨"f0", some "bogus\n", none⟩]⟩
    ⟨"f0", some "bogus\n", none⟩ "bogus\n" PyError.valueError rfl (by simp) rfl rfl

lemma found_crash_true_isDir (sync : SyncDir)
    (h : Fuzzer.found_crash sync = Except.ok true) : sync.isDir = true := by
  obtain ⟨d, es⟩ := sync
  cases d
  · rw [show Fuzzer.found_crash ⟨false, es⟩ = Except.ok false from rfl] at h
    simp at h
  · rfl

lemma crashes_of_found (sync : SyncDir)
    (h : Fuzzer.found_crash sync = Except.ok true) :
    Fuzzer.crashes sync = Except.ok (collectCrashes sync.entries []) := by
  have hd := found_crash_true_isDir sync h
  simp [Fuzzer.crashes, bind, Except.bind, h, hd]

lemma mem_setInsert (acc : List String) (x c : String) :
    c ∈ setInsert acc x ↔ c ∈ acc ∨ c = x := by
  by_cases hx : acc.contains x
  · have hxm : x ∈ acc := by simpa using hx
    simp only [setInsert, hx, if_true]
    constructor
    · exact Or.inl
    · rintro (h | rfl)
      · exact h
      · exact hxm
  · simp only [setInsert, hx, Bool.false_eq_true, if_false, List.mem_append,
      List.mem_singleton]

lemma nodup_setInsert (acc : List String) (x : String) (h : acc.Nodup) :
    (setInsert acc x).Nodup := by
  by_cases hx : acc.contains x
  · simp only [setInsert, hx, if_true]
    exact h
  · have hxm : x ∉ acc := by simpa using hx
    simp only [setInsert, hx, Bool.false_eq_true, if_false]
    refine List.Nodup.append h (List.nodup_singleton x) ?_
    intro a ha hb
    rw [List.mem_singleton] at hb
    subst hb
    exact hxm ha

lemma mem_addCrashFiles (files : List (String × String)) (acc : List String) (c : String) :
    c ∈ addCrashFiles acc files ↔
      c ∈ acc ∨ ∃ p ∈ files, p.1 ≠ "README.txt" ∧ p.2 = c := by
  induction files generalizing acc with
  | nil => simp [addCrashFiles]
  | cons f rest ih =>
    by_cases hf : f.1 = "README.txt"
    · have hb : (f.1 == "README.txt") = true := by simpa using hf
      simp only [addCrashFiles, hb, if_true, ih, List.mem_cons]
      constructor
      · rintro (h | ⟨p, hp, hne, hpc⟩)
        · exact Or.inl h
        · exact Or.inr ⟨p, Or.inr hp, hne, hpc⟩
      · rintro (h | ⟨p, hp | hp, hne, hpc⟩)
        · exact Or.inl h
        · subst hp; exact absurd hf hne
        · exact Or.inr ⟨p, hp, hne, hpc⟩
    · have hb : (f.1 == "README.txt") = false := by simpa using hf
      simp only [addCrashFiles, hb, Bool.false_eq_true, if_false, ih, mem_setInsert,
        List.mem_cons]
      constructor
      · rintro ((h | rfl) | ⟨p, hp, hne, hpc⟩)
        · exact Or.inl h
        · exact Or.inr ⟨f, Or.inl rfl, hf, rfl⟩
        · exact Or.inr ⟨p, Or.inr hp, hne, hpc⟩
      · rintro (h | ⟨p, hp | hp, hne, hpc⟩)
        · exact Or.inl (Or.inl h)
        · subst hp; exact Or.inl (Or.inr hpc.symm)
        · exact Or.inr ⟨p, hp, hne, hpc⟩

lemma nodup_addCrashFiles (files : List (String × String)) (acc : List String)
    (h : acc.Nodup) : (addCrashFiles acc files).Nodup := by
  induction files generalizing acc with
  | nil => simpa [addCrashFiles]
  | cons f rest ih =>
    rcases hb : (f.1 == "README.txt") with _ | _
    · simp only [addCrashFiles, hb, Bool.false_eq_true, if_false]
      exact ih _ (nodup_setInsert acc f.2 h)
    · simp only [addCrashFiles, hb, if_true]
      exact ih _ h

lemma mem_collectCrashes (entries : List FuzzerDirEntry) (acc : List String) (c : String) :
    c ∈ collectCrashes entries acc ↔
      c ∈ acc ∨ ∃ e ∈ entries, ∃ fs, e.crashes = some fs ∧
        ∃ p ∈ fs, p.1 ≠ "README.txt" ∧ p.2 = c := by
  induction entries generalizing acc with
  | nil => simp [collectCrashes]
  | cons e rest ih =>
    rcases he : e.crashes with _ | fs
    · simp only [collectCrashes, he, ih, List.mem_cons]
      constructor
      · rintro (h | ⟨e2, h2, hrest⟩)
        · exact Or.inl h
        · exact Or.inr ⟨e2, Or.inr h2, hrest⟩
      · rintro (h | ⟨e2, he2 | he2, fs, hfs, hrest⟩)
        · exact Or.inl h
        · subst he2; rw [he] at hfs; cases hfs
        · exact Or.inr ⟨e2, he2, fs, hfs, hrest⟩
    · simp only [collectCrashes, he, ih, mem_addCrashFiles, List.mem_cons]
      constructor
      · rintro ((h | hfile) | ⟨e2, h2, hrest⟩)
        · exact Or.inl h
        · exact Or.inr ⟨e, Or.inl rfl, fs, he, hfile⟩
        · exact Or.inr ⟨e2, Or.inr h2, hrest⟩
      · rintro (h | ⟨e2, he2 | he2, fs2, hfs2, hrest⟩)
        · exact Or.inl (Or.inl h)
        · subst he2
          rw [he] at hfs2
          cases hfs2
          exact Or.inl (Or.inr hrest)
        · exact Or.inr ⟨e2, he2, fs2, hfs2, hrest⟩

lemma nodup_collectCrashes (entries : List FuzzerDirEntry) (acc : List String)
    (h : acc.Nodup) : (collectCrashes entries acc).Nodup := by
  induction entries generalizing acc with
  | nil => simpa [collectCrashes]
  | cons e rest ih =>
    rcases he : e.crashes with _ | fs
    · simp only [collectCrashes, he]
      exact ih _ h
    · simp only [collectCrashes, he]
      exact ih _ (nodup_addCrashFiles fs acc h)

/-- C4: `crashes()` returns the empty result whenever `found_crash()` is
false; when `found_crash()` is true it returns the distinct crash-input
contents gathered from every worker's crash subdirectory — excluding the
fixed README.txt entry, deduplicated by byte content, with workers lacking
a crash subdirectory silently skipped (membership characterization). -/
theorem crashes_dedup_spec (sync : SyncDir) :
    (Fuzzer.found_crash sync = Except.ok false → Fuzzer.crashes sync = Except.ok []) ∧
    (Fuzzer.found_crash sync = Except.ok true →
      Fuzzer.crashes sync = Except.ok (collectCrashes sync.entries []) ∧
      (collectCrashes sync.entries []).Nodup ∧
      (∀ c, c ∈ collectCrashes sync.entries [] ↔
        ∃ e ∈ sync.entries, ∃ fs, e.crashes = some fs ∧
          ∃ p ∈ fs, p.1 ≠ "README.txt" ∧ p.2 = c)) := by
  constructor
  · intro h
    simp [Fuzzer.crashes, bind, Except.bind, h]
  · intro h
    refine ⟨crashes_of_found sync h, nodup_collectCrashes sync.entries [] List.nodup_nil, ?_⟩
    intro c
    simpa using mem_collectCrashes sync.entries [] c

theorem crashes_dedup_spec_witness :
    Fuzzer.crashes ⟨true,
      [⟨"f0", some "unique_crashes : 2\n", some [("README.txt", "doc"), ("id0", "AAAA")]⟩,
       ⟨"f1", some "unique_crashes : 0\n", some [("id1", "AAAA"), ("id2", "BBBB")]⟩,
       ⟨"f2", some "unique_crashes : 0\n", none⟩]⟩ =
      Except.ok (collectCrashes
        [⟨"f0", some "unique_crashes : 2\n", some [("README.txt", "doc"), ("id0", "AAAA")]⟩,
         ⟨"f1", some "unique_crashes : 0\n", some [("id1", "AAAA"), ("id2", "BBBB")]⟩,
         ⟨"f2", some "unique_crashes : 0\n", none⟩] []) ∧
    collectCrashes
        [⟨"f0", some "unique_crashes : 2\n", some [("README.txt", "doc"), ("id0", "AAAA")]⟩,
         ⟨"f1", some "unique_crashes : 0\n", some [("id1", "AAAA"), ("id2", "BBBB")]⟩,
         ⟨"f2", some "unique_crashes : 0\n", none⟩] [] = ["AAAA", "BBBB"] :=
  ⟨((crashes_dedup_spec ⟨true,
      [⟨"f0", some "unique_crashes : 2\n", some [("README.txt", "doc"), ("id0", "AAAA")]⟩,
       ⟨"f1", some "unique_crashes : 0\n", some [("id1", "AAAA"), ("id2", "BBBB")]⟩,
       ⟨"f2", some "unique_crashes : 0\n", none⟩]⟩).2 rfl).1, rfl⟩

lemma mkWorker_addInstance (st : FuzzerState) (i : Nat) :
    mkWorker (addInstance st) i = mkWorker st i := rfl

lemma addInstance_procs (st : FuzzerState) :
    (addInstance st).procs = st.procs ++ [mkWorker st st.fuzz_id] := rfl

lemma addInstance_fuzz_id (st : FuzzerState) :
    (addInstance st).fuzz_id = st.fuzz_id + 1 := rfl

lemma addInstances_procs (st : FuzzerState) (k : Nat) :
    (addInstances st k).procs =
      st.procs ++ (List.range' st.fuzz_id k).map (mkWorker st) ∧
    (addInstances st k).fuzz_id = st.fuzz_id + k := by
  induction k generalizing st with
  | zero => simp [addInstances]
  | succ k ih =>
    obtain ⟨h1, h2⟩ := ih (addInstance st)
    constructor
    · rw [addInstances, h1]
      have hmk : mkWorker (addInstance st) = mkWorker st :=
        funext fun i => mkWorker_addInstance st i
      rw [hmk, addInstance_procs, addInstance_fuzz_id, List.append_assoc]
      congr 1
    · rw [addInstances, h2, addInstance_fuzz_id]
      omega

lemma start_afl_spec (st : FuzzerState) (h0 : st.procs = []) (h1 : st.fuzz_id = 0)
    (hn : 1 ≤ st.afl_count) :
    (Fuzzer.start_afl st).procs = (List.range st.afl_count).map (mkWorker st) := by
  simp only [Fuzzer.start_afl]
  by_cases hc : st.afl_count > 1
  · rw [if_pos hc]
    obtain ⟨hp, -⟩ := addInstances_procs (addInstance (addInstance st)) (st.afl_count - 2)
    rw [hp]
    have hmk2 : mkWorker (addInstance (addInstance st)) = mkWorker st :=
      funext fun i =>
        (mkWorker_addInstance (addInstance st) i).trans (mkWorker_addInstance st i)
    rw [hmk2, addInstance_procs, addInstance_fuzz_id, mkWorker_addInstance,
      addInstance_fuzz_id, addInstance_procs, h0, h1]
    rw [List.range_eq_range']
    obtain ⟨m, hm⟩ : ∃ m, st.afl_count = m + 2 := ⟨st.afl_count - 2, by omega⟩
    rw [hm]
    simp only [Nat.add_sub_cancel]
    rw [show List.range' 0 (m + 2) = 0 :: 1 :: List.range' 2 m from rfl,
      List.map_cons, List.map_cons]
    simp [addInstance_fuzz_id, h1]
  · rw [if_neg hc]
    have h1count : st.afl_count = 1 := by omega
    rw [h1count]
    simp only [show (1 : Nat) - 2 = 0 from rfl, addInstances]
    rw [addInstance_procs, h0, h1]
    rfl

lemma start_afl_instance_args (st : FuzzerState) (memory : String) :
    ∃ tail, (Fuzzer.start_afl_instance st memory).2.args =
      [st.afl_path, "-i", st.in_dir, "-o", st.out_dir, "-m", memory, "-Q"] ++
        (if st.fuzz_id = 0 then ["-M", "fuzzer-master"]
          else ["-S", "fuzzer-" ++ pyFormatD st.fuzz_id]) ++ tail := by
  rcases hd : st.dictionary with _ | d <;> rcases he : st.extra_opts with _ | eo
  · exact ⟨["--", st.binary_path], by simp [Fuzzer.start_afl_instance, hd, he]⟩
  · exact ⟨eo ++ ["--", st.binary_path], by simp [Fuzzer.start_afl_instance, hd, he]⟩
  · exact ⟨["-x", d] ++ ["--", st.binary_path], by simp [Fuzzer.start_afl_instance, hd, he]⟩
  · exact ⟨["-x", d] ++ eo ++ ["--", st.binary_path],
      by simp [Fuzzer.start_afl_instance, hd, he]⟩

lemma mkWorker_logFile (st : FuzzerState) (i : Nat) :
    (mkWorker st i).logFile =
      pyJoin st.job_dir (if i = 0 then "fuzzer-master.log"
        else "fuzzer-" ++ pyFormatD i ++ ".log") := rfl

/-- C2 counterexample: on a fresh two-worker campaign the second worker —
the first secondary — carries ordinal 1 (role flag fuzzer-1, log file
fuzzer-1.log), not the ordinal 0 a zero-based secondary numbering would
give it. -/
theorem secondary_ordinal_not_zero_based :
    (Fuzzer.start_afl sampleState).procs.map Worker.logFile =
      ["job/fuzzer-master.log", "job/fuzzer-1.log"] ∧
    (Fuzzer.start_afl sampleState).procs.map Worker.args =
      [["afl", "-i", "in", "-o", "out", "-m", "8G", "-Q", "-M", "fuzzer-master",
        "--", "bp"],
       ["afl", "-i", "in", "-o", "out", "-m", "8G", "-Q", "-S", "fuzzer-1",
        "--", "bp"]] ∧
    "job/fuzzer-1.log" ≠ "job/fuzzer-0.log" :=
  ⟨rfl, rfl, by decide⟩

/-- C2 (amended): for every requested worker count n >= 1 on a fresh
campaign state, `_start_afl` spawns exactly n workers; the first holds the
primary role (flag -M fuzzer-master, log fuzzer-master.log), and the i-th
worker for i >= 1 is secondary with ordinal i — the ordinal continues the
campaign-wide counter the primary starts at 0, so the first secondary is
fuzzer-1 (flag -S fuzzer-i, log fuzzer-i.log). -/
theorem start_spawns_count_roles (st : FuzzerState)
    (h0 : st.procs = []) (h1 : st.fuzz_id = 0) (hn : 1 ≤ st.afl_count) :
    (Fuzzer.start_afl st).procs.length = st.afl_count ∧
    (Fuzzer.start_afl st).procs = (List.range st.afl_count).map (mkWorker st) ∧
    ((mkWorker st 0).logFile = pyJoin st.job_dir "fuzzer-master.log" ∧
      ∃ tail, (mkWorker st 0).args =
        [st.afl_path, "-i", st.in_dir, "-o", st.out_dir, "-m", "8G", "-Q",
          "-M", "fuzzer-master"] ++ tail) ∧
    (∀ i, 1 ≤ i →
      (mkWorker st i).logFile =
        pyJoin st.job_dir ("fuzzer-" ++ pyFormatD i ++ ".log") ∧
      ∃ tail, (mkWorker st i).args =
        [st.afl_path, "-i", st.in_dir, "-o", st.out_dir, "-m", "8G", "-Q",
          "-S", "fuzzer-" ++ pyFormatD i] ++ tail) := by
  have hspec := start_afl_spec st h0 h1 hn
  refine ⟨by rw [hspec]; simp, hspec, ⟨?_, ?_⟩, ?_⟩
  · rw [mkWorker_logFile, if_pos rfl]
  · obtain ⟨tail, ht⟩ := start_afl_instance_args { st with fuzz_id := 0 } "8G"
    refine ⟨tail, ?_⟩
    rw [show (mkWorker st 0).args =
      (Fuzzer.start_afl_instance { st with fuzz_id := 0 } "8G").2.args from rfl, ht]
    simp
  · intro i hi
    constructor
    · rw [mkWorker_logFile, if_neg (show ¬ i = 0 by omega)]
    · obtain ⟨tail, ht⟩ := start_afl_instance_args { st with fuzz_id := i } "8G"
      refine ⟨tail, ?_⟩
      have hproj : ({ st with fuzz_id := i } : FuzzerState).fuzz_id = i := rfl
      rw [show (mkWorker st i).args =
        (Fuzzer.start_afl_instance { st with fuzz_id := i } "8G").2.args from rfl, ht,
        hproj, if_neg (show ¬ i = 0 by omega)]
      simp

theorem start_spawns_count_roles_witness :
    (Fuzzer.start_afl sampleState).procs.length = 2 ∧
    (mkWorker sampleState 0).logFile = pyJoin "job" "fuzzer-master.log" ∧
    (mkWorker sampleState 1).logFile =
      pyJoin "job" ("fuzzer-" ++ pyFormatD 1 ++ ".log") := by
  obtain ⟨hlen, -, ⟨hm, -⟩, hsec⟩ :=
    start_spawns_count_roles sampleState rfl rfl (by decide)
  exact ⟨hlen, hm, (hsec 1 (by omega)).1⟩

/-- C1: if the preflight execution of the target terminates via a fault
signal (negative status), `start()` raises `EarlyCrash` with the object
state unchanged — no workers spawned; if the target exits with a
non-negative status, `start()` spawns the requested workers and marks the
campaign active. -/
theorem start_preflight_gate (st : FuzzerState) (s : Int)
    (h0 : st.procs = []) (h1 : st.fuzz_id = 0) (hn : 1 ≤ st.afl_count) :
    (s < 0 → Fuzzer.start (LaunchResult.ok s) st = (st, some PyError.earlyCrash)) ∧
    (0 ≤ s →
      (Fuzzer.start (LaunchResult.ok s) st).2 = none ∧
      (Fuzzer.start (LaunchResult.ok s) st).1.is_on = true ∧
      (Fuzzer.start (LaunchResult.ok s) st).1.procs.length = st.afl_count) := by
  constructor
  · intro hs
    have hd : decide (s < 0) = true := decide_eq_true hs
    simp only [Fuzzer.start, Fuzzer.crash_test, hd]
  · intro hs
    have hd : decide (s < 0) = false := decide_eq_false (by omega)
    simp only [Fuzzer.start, Fuzzer.crash_test, hd]
    refine ⟨trivial, trivial, ?_⟩
    rw [start_afl_spec st h0 h1 hn]
    simp

theorem start_preflight_gate_witness :
    Fuzzer.start (LaunchResult.ok (-11)) sampleState =
      (sampleState, some PyError.earlyCrash) ∧
    ((Fuzzer.start (LaunchResult.ok 0) sampleState).2 = none ∧
      (Fuzzer.start (LaunchResult.ok 0) sampleState).1.is_on = true ∧
      (Fuzzer.start (LaunchResult.ok 0) sampleState).1.procs.length = 2) :=
  ⟨(start_preflight_gate sampleState (-11) rfl rfl (by decide)).1 (by decide),
   (start_preflight_gate sampleState 0 rfl rfl (by decide)).2 (by decide)⟩

/-- C7 counterexample: when launching the harness subprocess raises, the
preflight check propagates the exception without removing its temporary
input file — `os.remove` is not reached on that exit path. -/
theorem crash_test_leak_on_launch_failure :
    (Fuzzer.crash_test LaunchResult.raises).tempFileRemoved = false ∧
    (Fuzzer.crash_test LaunchResult.raises).result = Except.error PyError.osError :=
  ⟨rfl, rfl⟩

/-- C7 (amended): the preflight check's temporary input file is removed on
every exit path on which the harness subprocess was successfully launched
and waited on, whatever the termination status; it is not removed on the
path where launching the subprocess raises. -/
theorem crash_test_removes_tempfile_normal (s : Int) :
    (Fuzzer.crash_test (LaunchResult.ok s)).tempFileRemoved = true ∧
    (Fuzzer.crash_test LaunchResult.raises).tempFileRemoved = false :=
  ⟨rfl, rfl⟩
